import Mathlib

/-!
Verification of the resilience / orchestration layer of the batch
data-acquisition pipeline: the error-classifying retry engine
(`RetryManager` in `src/lib/retry.ts`), the per-domain circuit breakers
(`CircuitBreaker`), and the bounded-concurrency batch coordinator
(`ParallelScraper.scrapeUrls` in `src/lib/scraper.ts`).

The TypeScript code is embedded shallowly:
* JavaScript numbers used for delays are modelled as `ℚ` (the values the
  code manipulates are exact in the ranges involved); `Math.floor` is
  `Rat.floor`.
* Timestamps (`Date.now()`) are `Nat` milliseconds, passed explicitly.
* The mutable `Map<string, CircuitBreaker>` is an insertion-ordered
  association list threaded through every operation; methods that mutate
  in the source return the updated state.
* The opaque asynchronous `operation` is a function from the invocation
  index to an outcome; elapsed wall-clock time per invocation and
  `Math.random()` draws are supplied as oracle functions so that theorems
  quantify over every possible schedule.
-/

set_option autoImplicit false

namespace AbleAway

/-- JavaScript `String.prototype.startsWith` on character lists:
`listStartsWith s pat` is true when `pat` is an initial segment of `s`. -/
def listStartsWith : List Char → List Char → Bool
  | _, [] => true
  | [], _ :: _ => false
  | a :: as, b :: bs => a = b && listStartsWith as bs

/-- `listHasSub s pat` is true when `pat` occurs contiguously inside `s`. -/
def listHasSub : List Char → List Char → Bool
  | [], pat => pat.isEmpty
  | c :: rest, pat => listStartsWith (c :: rest) pat || listHasSub rest pat

/-- JavaScript `s.includes(pat)`: substring containment. -/
def includes (s pat : String) : Bool :=
  listHasSub s.toList pat.toList

/-- `ErrorType` enum from `src/lib/retry.ts`. -/
inductive ErrorType where
  | NETWORK_ERROR
  | TIMEOUT_ERROR
  | PARSING_ERROR
  | AI_EXTRACTION_ERROR
  | BROWSER_ERROR
  | UNKNOWN_ERROR
  deriving DecidableEq, Repr

/-- The shape of a raw thrown error as inspected by
`RetryManager.categorizeError`: optional `code`, `name` and `message`
fields, plus the `errorType` / `retryable` payload that is meaningful
when the error is a `RetryableError` (i.e. `name = "RetryableError"`). -/
structure RawError where
  code : Option String
  name : Option String
  message : Option String
  errorType : ErrorType
  retryable : Bool
  deriving DecidableEq, Repr

/-- JavaScript `error?.message || "Unknown error"`: an absent or empty
message falls back to `"Unknown error"`. -/
def jsMessage (m : Option String) : String :=
  match m with
  | some s => if s = "" then "Unknown error" else s
  | none => "Unknown error"

/-- `DetailedError` from `src/lib/retry.ts` (the ISO timestamp string is
modelled by the millisecond clock value at classification time). -/
structure DetailedError where
  type : ErrorType
  message : String
  originalError : RawError
  attempt : Nat
  url : String
  timestamp : Nat
  retryable : Bool
  deriving DecidableEq, Repr

/-- `RetryManager.categorizeError`, branch for branch.  The cascade of
`if`/`else if` pattern tests runs in source order; the `retryable`
variable starts `true`, is overwritten only by the `RetryableError`
pass-through branch, and the 401/403/404 message test overrides it to
`false` at the end. -/
def categorizeError (error : RawError) (url : String) (attempt : Nat)
    (context : String) (now : Nat) : DetailedError :=
  let message := jsMessage error.message
  let base : ErrorType × Bool :=
    if error.code = some "ENOTFOUND" ∨ error.code = some "ECONNREFUSED" then
      (ErrorType.NETWORK_ERROR, true)
    else if error.code = some "ETIMEDOUT" ∨ includes message "timeout" then
      (ErrorType.TIMEOUT_ERROR, true)
    else if error.name = some "TimeoutError" ∨ includes message "Navigation timeout" then
      (ErrorType.BROWSER_ERROR, true)
    else if includes message "JSON" ∨ includes message "parse" then
      (ErrorType.PARSING_ERROR, true)
    else if includes context "extract" ∨ includes message "AI" ∨ includes message "OpenAI" then
      (ErrorType.AI_EXTRACTION_ERROR, true)
    else if error.name = some "RetryableError" then
      (error.errorType, error.retryable)
    else
      (ErrorType.UNKNOWN_ERROR, true)
  let retryable : Bool :=
    if includes message "401" ∨ includes message "403" ∨ includes message "404" then
      false
    else
      base.2
  { type := base.1, message := message, originalError := error,
    attempt := attempt, url := url, timestamp := now, retryable := retryable }

/-- Per-key circuit breaker state (`CircuitBreaker` class fields). -/
structure CircuitBreaker where
  failures : Nat
  successes : Nat
  lastFailureTime : Nat
  deriving DecidableEq, Repr

/-- `failureThreshold = 5` in the source. -/
def failureThreshold : Nat := 5

/-- `resetTimeout = 60000` ms in the source. -/
def resetTimeout : Nat := 60000

/-- A freshly constructed `new CircuitBreaker()`. -/
def CircuitBreaker.new : CircuitBreaker :=
  { failures := 0, successes := 0, lastFailureTime := 0 }

/-- `recordFailure`: increment failures, stamp the failure time. -/
def CircuitBreaker.recordFailure (cb : CircuitBreaker) (now : Nat) : CircuitBreaker :=
  { failures := cb.failures + 1, successes := cb.successes, lastFailureTime := now }

/-- `recordSuccess`: increment successes, reset failures to zero. -/
def CircuitBreaker.recordSuccess (cb : CircuitBreaker) : CircuitBreaker :=
  { failures := 0, successes := cb.successes + 1, lastFailureTime := cb.lastFailureTime }

/-- `isOpen()`: returns the boolean answer together with the state of
the breaker after the call, because the source method *mutates* the
breaker (it zeroes `failures` when the reset timeout has expired).
`Date.now() - lastFailureTime > resetTimeout` behaves identically under
truncated `Nat` subtraction: a clock earlier than the last failure makes
the JS difference negative and the `Nat` difference zero, and both fail
the `> resetTimeout` test. -/
def CircuitBreaker.isOpen (cb : CircuitBreaker) (now : Nat) : Bool × CircuitBreaker :=
  if cb.failures < failureThreshold then
    (false, cb)
  else if now - cb.lastFailureTime > resetTimeout then
    (false, { cb with failures := 0 })
  else
    (true, cb)

/-- `getFailureCount()`. -/
def CircuitBreaker.getFailureCount (cb : CircuitBreaker) : Nat := cb.failures

/-- `getSuccessCount()`. -/
def CircuitBreaker.getSuccessCount (cb : CircuitBreaker) : Nat := cb.successes

/-- `RetryConfig` (delays in milliseconds as exact rationals). -/
structure RetryConfig where
  maxAttempts : Nat
  baseDelay : ℚ
  maxDelay : ℚ
  backoffMultiplier : ℚ
  jitter : Bool
  deriving DecidableEq, Repr

/-- The defaults applied by the `RetryManager` constructor. -/
def defaultRetryConfig : RetryConfig :=
  { maxAttempts := 3, baseDelay := 1000, maxDelay := 30000,
    backoffMultiplier := 2, jitter := true }

/-- `RetryManager.calculateDelay`.  `rand` is the `Math.random()` draw
used when jitter is enabled (a value in `[0,1)`); the final `Math.floor`
is `Rat.floor`. -/
def calculateDelay (config : RetryConfig) (attempt : Nat) (rand : ℚ) : ℤ :=
  let delay := config.baseDelay * config.backoffMultiplier ^ (attempt - 1)
  let capped := min delay config.maxDelay
  let jittered := if config.jitter then capped * (1/2 + rand * (1/2)) else capped
  Int.floor jittered

/-- Scheme characters accepted after the first letter of a URL scheme. -/
def isSchemeChar (c : Char) : Bool :=
  c.isAlphanum || c = '+' || c = '-' || c = '.'

/-- Splits a character list at the scheme-terminating colon, if the
characters before the colon all belong to a scheme. -/
def schemeSplit : List Char → Option (List Char)
  | [] => none
  | c :: rest => if c = ':' then some rest else if isSchemeChar c then schemeSplit rest else none

/-- Simplified model of the platform `new URL(url).hostname` used by
`extractDomain`: parsing fails (`none`) unless the string starts with an
alphabetic scheme terminated by a colon — in particular every string
without a colon fails to parse, which is all the theorems below rely on.
A `//` authority yields the host up to the first delimiter, lower-cased;
an opaque-path URL has hostname `""`.  (Userinfo, ports, IPv6 brackets
and percent-encoding are not modelled.) -/
def urlHostname (url : String) : Option String :=
  match url.toList with
  | [] => none
  | c :: rest =>
    if c.isAlpha then
      match schemeSplit rest with
      | none => none
      | some afterScheme =>
        match afterScheme with
        | '/' :: '/' :: hostRest =>
          let host := hostRest.takeWhile fun ch => ¬ (ch = '/' || ch = '?' || ch = '#' || ch = ':')
          if host.isEmpty then none else some (String.mk (host.map Char.toLower))
        | _ => some ""
    else none

/-- `RetryManager.extractDomain`: the hostname of the key when it parses
as a URL, otherwise the catch branch returns `"unknown"`. -/
def extractDomain (url : String) : String :=
  match urlHostname url with
  | some h => h
  | none => "unknown"

/-- Outcome of one invocation of the opaque asynchronous operation. -/
inductive OpOutcome (T : Type) where
  | ok (value : T)
  | err (error : RawError)
  deriving DecidableEq, Repr

/-- A value thrown out of `executeWithRetry`: either a `RetryableError`
constructed on the spot (circuit open, or the zero-attempt fallback) or
the last `DetailedError` produced by `categorizeError`. -/
inductive RetryError where
  | retryableErr (errorType : ErrorType) (message : String) (retryable : Bool)
  | detailed (e : DetailedError)
  deriving DecidableEq, Repr

/-- Lookup in the insertion-ordered breaker map. -/
def lookupBreaker : List (String × CircuitBreaker) → String → Option CircuitBreaker
  | [], _ => none
  | (k, cb) :: rest, d => if k = d then some cb else lookupBreaker rest d

/-- `Map.set` semantics: overwrite in place, or append a new entry. -/
def setBreaker : List (String × CircuitBreaker) → String → CircuitBreaker →
    List (String × CircuitBreaker)
  | [], d, cb => [(d, cb)]
  | (k, c) :: rest, d, cb =>
    if k = d then (k, cb) :: rest else (k, c) :: setBreaker rest d cb

/-- State of one `RetryManager`: its breaker map plus the current clock. -/
structure RMState where
  breakers : List (String × CircuitBreaker)
  now : Nat
  deriving DecidableEq, Repr

/-- `getCircuitBreaker`'s lazy-creation effect on the map. -/
def ensureBreaker (bs : List (String × CircuitBreaker)) (d : String) :
    List (String × CircuitBreaker) :=
  match lookupBreaker bs d with
  | some _ => bs
  | none => bs ++ [(d, CircuitBreaker.new)]

/-- Everything observable about one `executeWithRetry` call: the
returned value or thrown error, the final manager state, how many times
the operation was invoked, and every classified error produced along the
way (in production order). -/
structure RunResult (T : Type) where
  result : Except RetryError T
  state : RMState
  invocations : Nat
  errors : List DetailedError

/-- The `for (attempt = 1..maxAttempts)` loop of `executeWithRetry`,
recursing on the number of attempts that remain (`rem = 0` ⟺ the
previous attempt was attempt `maxAttempts`).  Falling out of the loop
throws the last classified error, or the fallback `RetryableError` when
the loop body never ran. -/
def retryLoop {T : Type} (config : RetryConfig) (op : Nat → OpOutcome T)
    (opTime : Nat → Nat) (rand : Nat → ℚ) (url context domain : String) :
    Nat → Nat → RMState → Nat → Option DetailedError → List DetailedError → RunResult T
  | _attempt, 0, st, inv, lastError, errs =>
    { result := Except.error (match lastError with
        | some e => RetryError.detailed e
        | none => RetryError.retryableErr ErrorType.UNKNOWN_ERROR "All retry attempts failed" false),
      state := st, invocations := inv, errors := errs }
  | attempt, rem + 1, st, inv, _lastError, errs =>
    let now1 := st.now + opTime inv
    match op inv with
    | OpOutcome.ok v =>
        let cb := (lookupBreaker st.breakers domain).getD CircuitBreaker.new
        let st1 : RMState :=
          { breakers := setBreaker st.breakers domain cb.recordSuccess, now := now1 }
        { result := Except.ok v, state := st1, invocations := inv + 1, errors := errs }
    | OpOutcome.err e =>
        let de := categorizeError e url attempt context now1
        let cb := (lookupBreaker st.breakers domain).getD CircuitBreaker.new
        let st1 : RMState :=
          { breakers := setBreaker st.breakers domain (cb.recordFailure now1), now := now1 }
        if de.retryable = false ∨ rem = 0 then
          { result := Except.error (RetryError.detailed de), state := st1,
            invocations := inv + 1, errors := errs ++ [de] }
        else
          let delay := calculateDelay config attempt (rand attempt)
          let st2 : RMState := { breakers := st1.breakers, now := st1.now + delay.toNat }
          retryLoop config op opTime rand url context domain
            (attempt + 1) rem st2 (inv + 1) (some de) (errs ++ [de])

/-- `RetryManager.executeWithRetry`: resolve the key to a domain, ensure
its breaker exists, consult `isOpen` (whose auto-reset mutation is
written back), short-circuit if open, otherwise run the attempt loop. -/
def executeWithRetry {T : Type} (config : RetryConfig) (op : Nat → OpOutcome T)
    (opTime : Nat → Nat) (rand : Nat → ℚ) (url : String) (context : String)
    (st : RMState) : RunResult T :=
  let domain := extractDomain url
  let bs := ensureBreaker st.breakers domain
  let cb := (lookupBreaker bs domain).getD CircuitBreaker.new
  let openResult := cb.isOpen st.now
  let st1 : RMState := { breakers := setBreaker bs domain openResult.2, now := st.now }
  if openResult.1 then
    { result := Except.error (RetryError.retryableErr ErrorType.NETWORK_ERROR
        ("Circuit breaker is open for domain " ++ domain) false),
      state := st1, invocations := 0, errors := [] }
  else
    retryLoop config op opTime rand url context domain 1 config.maxAttempts st1 0 none []

/-- One element of `getStats().domains`. -/
structure DomainStat where
  domain : String
  failures : Nat
  successes : Nat
  isOpen : Bool
  deriving DecidableEq, Repr

/-- The per-entry map of `getStats`: the object literal reads
`getFailureCount()` and `getSuccessCount()` before calling `isOpen()`,
whose auto-reset mutation persists in the map. -/
def statsEntries (now : Nat) :
    List (String × CircuitBreaker) → List DomainStat × List (String × CircuitBreaker)
  | [] => ([], [])
  | (k, cb) :: rest =>
    let o := cb.isOpen now
    let e : DomainStat :=
      { domain := k, failures := cb.getFailureCount,
        successes := cb.getSuccessCount, isOpen := o.1 }
    let r := statsEntries now rest
    (e :: r.1, (k, o.2) :: r.2)

/-- `getStats()` return value. -/
structure RetryStats where
  domains : List DomainStat
  totalDomains : Nat
  openCircuits : Nat
  deriving DecidableEq, Repr

/-- `RetryManager.getStats`, with the state it leaves behind. -/
def getStats (st : RMState) : RetryStats × RMState :=
  let r := statsEntries st.now st.breakers
  ({ domains := r.1, totalDomains := r.1.length,
     openCircuits := (r.1.filter fun s => s.isOpen).length },
   { breakers := r.2, now := st.now })

/-- `ScrapeResult` from `src/types.ts` as produced by
`ParallelScraper.processUrl` (the ISO timestamp is the clock value). -/
structure ScrapeResult (F : Type) where
  url : String
  success : Bool
  data : Option F
  error : Option String
  timestamp : Nat
  deriving DecidableEq, Repr

/-- The shape of an error thrown out of `scrapeUrl`/`extractFeatures` as
inspected by `processUrl`'s catch block: optional `type`, `message` and
`attempt` fields plus whether it is an `instanceof Error`. -/
structure ThrownError where
  type : Option String
  message : Option String
  attempt : Option Nat
  isError : Bool
  deriving DecidableEq, Repr

/-- JS truthiness of an optional string field (absent or `""` is falsy). -/
def truthyStr : Option String → Bool
  | some s => !(s = "")
  | none => false

/-- JS truthiness of an optional numeric field (absent or `0` is falsy). -/
def truthyNat : Option Nat → Bool
  | some n => !(n = 0)
  | none => false

/-- The error message assembled in `processUrl`'s catch block. -/
def thrownMessage (err : ThrownError) : String :=
  if truthyStr err.type ∧ truthyStr err.message then
    (err.type.getD "") ++ ": " ++ (err.message.getD "") ++
      (if truthyNat err.attempt then
        " (failed after " ++ toString (err.attempt.getD 0) ++ " attempts)"
      else "")
  else if err.isError then
    err.message.getD ""
  else
    "Unknown error"

/-- What the opaque scrape-and-extract pipeline does for one URL:
either `extractFeatures` returns (possibly `null`), or something is
thrown and caught by `processUrl`. -/
inductive ItemOutcome (F : Type) where
  | features (f : Option F)
  | thrown (err : ThrownError)
  deriving DecidableEq, Repr

/-- `ParallelScraper.processUrl`: success result when features are
truthy, a failure result when extraction yields `null`, and the catch
block converts a thrown error into a failure result — it never lets the
failure propagate. -/
def processUrl {F : Type} (behavior : String → ItemOutcome F) (now : Nat)
    (url : String) : ScrapeResult F :=
  match behavior url with
  | ItemOutcome.features (some f) =>
    { url := url, success := true, data := some f, error := none, timestamp := now }
  | ItemOutcome.features none =>
    { url := url, success := false, data := none,
      error := some "Failed to extract accessibility features", timestamp := now }
  | ItemOutcome.thrown e =>
    { url := url, success := false, data := none,
      error := some (thrownMessage e), timestamp := now }

/-- Observable events of one `scrapeUrls` run, tagged with the
zero-based index of the concurrency window they belong to. -/
inductive Event (F : Type) where
  | invoke (window : Nat) (url : String)
  | settle (window : Nat) (url : String) (r : ScrapeResult F)
  | persistEvt (window : Nat) (url : String) (ok : Bool)
  | pause (window : Nat)
  deriving DecidableEq, Repr

/-- Ordering measure on events: within one window, invocations come
before settlements, settlements before persistence, persistence before
the inter-window pause, and everything before the next window. -/
def phase {F : Type} : Event F → Nat
  | Event.invoke k _ => 4 * k
  | Event.settle k _ _ => 4 * k + 1
  | Event.persistEvt k _ _ => 4 * k + 2
  | Event.pause k => 4 * k + 3

/-- Worker for `chunksOf`, structurally recursive on a fuel argument. -/
def chunksGo {α : Type} (n : Nat) : Nat → List α → List (List α)
  | _, [] => []
  | 0, _ :: _ => []
  | fuel + 1, a :: as => (a :: as).take n :: chunksGo n fuel ((a :: as).drop n)

/-- The `slice(i, i + maxConcurrent)` batching of the source loop:
`chunksOf n l` is the list of consecutive `n`-element windows of `l`,
the last one possibly shorter.  The fuel of `chunksGo` never runs out
when `n ≥ 1` since each step consumes at least one element.  (The source
loop `i += maxConcurrent` diverges when `maxConcurrent = 0`; that
degenerate case returns no batches here, and the theorems assume
`1 ≤ maxConcurrent`.) -/
def chunksOf {α : Type} (n : Nat) (l : List α) : List (List α) :=
  if n == 0 then [] else chunksGo n l.length l

/-- Results plus event trace of one `scrapeUrls` run. -/
structure BatchRun (F : Type) where
  results : List (ScrapeResult F)
  trace : List (Event F)

/-- The window loop of `scrapeUrls`: for each batch, all items are
launched (`invoke`), `Promise.all` settles them all (`settle`), then the
save loop persists each successful result (`persistEvt`, with the
outcome of the guarded `insertHotel` call), then — if batches remain —
the inter-batch pause. -/
def runBatches {F : Type} (behavior : String → ItemOutcome F)
    (persistOk : String → Bool) (now : Nat) :
    List (List String) → Nat → BatchRun F
  | [], _ => { results := [], trace := [] }
  | batch :: rest, k =>
    let rs := batch.map (processUrl behavior now)
    let invokes := batch.map (Event.invoke k)
    let settles := rs.map fun r => Event.settle k r.url r
    let persists := (rs.filter fun r => r.success && r.data.isSome).map
        fun r => Event.persistEvt k r.url (persistOk r.url)
    let pauseChunk : List (Event F) := if rest.isEmpty then [] else [Event.pause k]
    let next := runBatches behavior persistOk now rest (k + 1)
    { results := rs ++ next.results,
      trace := invokes ++ settles ++ persists ++ pauseChunk ++ next.trace }

/-- `ParallelScraper.scrapeUrls`: filter out URLs already stored
(`urlExists`), return early when nothing is pending, otherwise drive the
pending URLs through the window loop. -/
def scrapeUrls {F : Type} (maxConcurrent : Nat) (behavior : String → ItemOutcome F)
    (persistOk : String → Bool) (now : Nat) (urls : List String)
    (urlExists : String → Bool) : BatchRun F :=
  let newUrls := urls.filter fun u => !(urlExists u)
  if newUrls.isEmpty then { results := [], trace := [] }
  else runBatches behavior persistOk now (chunksOf maxConcurrent newUrls) 0

/-! ## Helper lemmas -/

lemma statsEntries_snd (now : Nat) :
    ∀ bs : List (String × CircuitBreaker),
      (statsEntries now bs).2 = bs.map fun p => (p.1, ((p.2.isOpen now)).2)
  | [] => rfl
  | (k, cb) :: rest => by
    simp only [statsEntries, List.map_cons]
    exact congrArg _ (statsEntries_snd now rest)

/-! ## C2: when is a breaker open -/

/-- C2, counterexample to the claim as stated: with exactly the threshold
number of failures and exactly `resetTimeout` (60000 ms) elapsed since
the last failure, `isOpen` still answers `true`, although strictly less
than `resetTimeout` has *not* elapsed — the source keeps the breaker open
up to and including the boundary instant (`elapsed > resetTimeout` is
required to close it), while the claim requires `elapsed < resetTimeout`
for it to be open. -/
theorem claim_c2_counterexample :
    (CircuitBreaker.isOpen
        { failures := 5, successes := 0, lastFailureTime := 0 } 60000).1 = true ∧
    ¬ ((60000 : Nat) - 0 < resetTimeout) := by decide

/-- C2 (corrected): `isOpen(key)` is true iff the failure count has
reached the threshold and **at most** `resetTimeout` (inclusive) has
elapsed since the last failure; a fresh zero-count state is never open,
and once strictly more than `resetTimeout` has elapsed the breaker
reports closed without any success being recorded. -/
theorem claim_c2_amended (cb : CircuitBreaker) (now : Nat) :
    ((cb.isOpen now).1 = true ↔
      failureThreshold ≤ cb.failures ∧ now - cb.lastFailureTime ≤ resetTimeout) ∧
    (CircuitBreaker.new.isOpen now).1 = false := by
  constructor
  · unfold CircuitBreaker.isOpen
    split_ifs with h1 h2 <;> simp <;> omega
  · simp [CircuitBreaker.isOpen, CircuitBreaker.new, failureThreshold]

/-! ## C7: mutation paths of breaker state -/

/-- C7, counterexample to the claim as stated: `isOpen` is not a pure
query — on a breaker at the failure threshold whose reset timeout has
expired, it zeroes the failure count. -/
theorem claim_c7_counterexample :
    (CircuitBreaker.isOpen
        { failures := 5, successes := 2, lastFailureTime := 0 } 70000).2 ≠
      { failures := 5, successes := 2, lastFailureTime := 0 } := by decide

/-- C7 (corrected): besides `recordSuccess` and `recordFailure`, the
`isOpen` query itself mutates the state, in exactly one case: when the
failure count has reached the threshold and strictly more than
`resetTimeout` has elapsed, it zeroes the failure count (successes and
the last-failure time are kept); in every other case it leaves the state
unchanged.  `getStats` applies exactly this `isOpen` update to every key
and leaves the clock unchanged. -/
theorem claim_c7_amended (cb : CircuitBreaker) (now : Nat) (st : RMState) :
    ((cb.isOpen now).2 =
      if failureThreshold ≤ cb.failures ∧ resetTimeout < now - cb.lastFailureTime then
        { failures := 0, successes := cb.successes, lastFailureTime := cb.lastFailureTime }
      else cb) ∧
    (getStats st).2.breakers = (st.breakers.map fun p => (p.1, ((p.2.isOpen st.now)).2)) ∧
    (getStats st).2.now = st.now := by
  refine ⟨?_, ?_, rfl⟩
  · unfold CircuitBreaker.isOpen
    split_ifs with h1 h2 h3 h4 h5 <;> first | rfl | omega
  · exact statsEntries_snd st.now st.breakers

/-! ## C8: pass-through of already-classified errors -/

/-- C8, counterexample to the claim as stated: a `RetryableError`
carrying `errorType = AI_EXTRACTION_ERROR, retryable = false` whose
message contains `"timeout"` is *not* passed through — the earlier
timeout pattern branch fires first and classifies it as a retryable
`TIMEOUT_ERROR`. -/
theorem claim_c8_counterexample :
    (categorizeError
        { code := none, name := some "RetryableError", message := some "request timeout",
          errorType := ErrorType.AI_EXTRACTION_ERROR, retryable := false }
        "http://x" 1 "processing" 0).type = ErrorType.TIMEOUT_ERROR ∧
    (categorizeError
        { code := none, name := some "RetryableError", message := some "request timeout",
          errorType := ErrorType.AI_EXTRACTION_ERROR, retryable := false }
        "http://x" 1 "processing" 0).retryable = true := by decide

/-- C8 (corrected): an error carrying the "already classified" marker
(`name = "RetryableError"`, with `errorType`/`retryable` payload) is
passed through only when none of the earlier pattern branches fires —
its `code` is none of the connection/timeout codes, its message contains
none of `"timeout"`, `"Navigation timeout"`, `"JSON"`, `"parse"`,
`"AI"`, `"OpenAI"`, and the context does not contain `"extract"` — and
even then the 401/403/404 message override still forces `retryable` to
`false` when it applies. -/
theorem claim_c8_amended (e : RawError) (url : String) (a : Nat) (ctx : String) (now : Nat)
    (hname : e.name = some "RetryableError")
    (hc1 : e.code ≠ some "ENOTFOUND") (hc2 : e.code ≠ some "ECONNREFUSED")
    (hc3 : e.code ≠ some "ETIMEDOUT")
    (hm1 : includes (jsMessage e.message) "timeout" = false)
    (hm2 : includes (jsMessage e.message) "Navigation timeout" = false)
    (hm3 : includes (jsMessage e.message) "JSON" = false)
    (hm4 : includes (jsMessage e.message) "parse" = false)
    (hctx : includes ctx "extract" = false)
    (hm5 : includes (jsMessage e.message) "AI" = false)
    (hm6 : includes (jsMessage e.message) "OpenAI" = false) :
    (categorizeError e url a ctx now).type = e.errorType ∧
    (categorizeError e url a ctx now).retryable =
      if includes (jsMessage e.message) "401" ∨ includes (jsMessage e.message) "403" ∨
          includes (jsMessage e.message) "404" then false else e.retryable := by
  unfold categorizeError
  simp only [hname, hm1, hm2, hm3, hm4, hm5, hm6, hctx]
  split_ifs <;> simp_all

/-- Witness for C8 (corrected): a marker error matching no earlier
pattern is passed through with its kind and retryability. -/
theorem claim_c8_witness :
    (categorizeError
        { code := none, name := some "RetryableError", message := some "boom",
          errorType := ErrorType.BROWSER_ERROR, retryable := false }
        "http://x" 1 "processing" 0).type = ErrorType.BROWSER_ERROR ∧
    (categorizeError
        { code := none, name := some "RetryableError", message := some "boom",
          errorType := ErrorType.BROWSER_ERROR, retryable := false }
        "http://x" 1 "processing" 0).retryable = false := by
  have h := claim_c8_amended
    { code := none, name := some "RetryableError", message := some "boom",
      errorType := ErrorType.BROWSER_ERROR, retryable := false }
    "http://x" 1 "processing" 0 rfl (by decide) (by decide) (by decide) (by decide)
    (by decide) (by decide) (by decide) (by decide) (by decide) (by decide)
  refine ⟨h.1, ?_⟩
  rw [h.2]
  decide

/-! ## C9: 401/403/404 forces non-retryable -/

/-- C9 (confirmed): whenever the raw error's effective message contains
`"401"`, `"403"` or `"404"`, the classified error's `retryable` flag is
`false`, regardless of which `ErrorType` the other rules assigned. -/
theorem claim_c9 (e : RawError) (url : String) (a : Nat) (ctx : String) (now : Nat)
    (h : includes (jsMessage e.message) "401" = true ∨
      includes (jsMessage e.message) "403" = true ∨
      includes (jsMessage e.message) "404" = true) :
    (categorizeError e url a ctx now).retryable = false := by
  unfold categorizeError
  split_ifs <;> simp_all

/-- Witness for C9 at a concrete 404-carrying error. -/
theorem claim_c9_witness :
    (categorizeError
        { code := none, name := none, message := some "HTTP 404 Not Found",
          errorType := ErrorType.UNKNOWN_ERROR, retryable := true }
        "http://x" 2 "scraping" 5).retryable = false :=
  claim_c9 _ _ _ _ _ (Or.inr (Or.inr (by decide)))

/-! ## C4: backoff delay computation -/

/-- C4, counterexample to the claim as stated: `calculateDelay` applies
`Math.floor` at the end.  With `baseDelay = 1` and
`backoffMultiplier = 3/2` the un-jittered delay for attempt 2 is
`⌊3/2⌋ = 1 ≠ min(baseDelay·multiplier^(attempt-1), maxDelay) = 3/2`;
and with jitter enabled, `baseDelay = 1` and random draw `0` the
realized delay for attempt 1 is `⌊1/2⌋ = 0`, strictly below the claimed
lower bound `0.5 × computed = 1/2`. -/
theorem claim_c4_counterexample :
    ((calculateDelay ⟨3, 1, 30000, 3/2, false⟩ 2 0 : ℚ) ≠
      min ((1 : ℚ) * (3/2) ^ (2 - 1)) 30000) ∧
    ¬ ((1/2 : ℚ) * min ((1 : ℚ) * 2 ^ (1 - 1)) 30000 ≤
      (calculateDelay ⟨3, 1, 30000, 2, true⟩ 1 0 : ℚ)) := by
  have hminA : min ((1 : ℚ) * (3/2) ^ (2 - 1)) 30000 = 3/2 := by
    rw [min_eq_left] <;> norm_num
  have hminB : min ((1 : ℚ) * 2 ^ (1 - 1)) 30000 = 1 := by
    rw [min_eq_left] <;> norm_num
  have hA : calculateDelay ⟨3, 1, 30000, 3/2, false⟩ 2 0 = 1 := by
    simp only [calculateDelay, hminA]
    rw [Int.floor_eq_iff] <;> norm_num
  have hB : calculateDelay ⟨3, 1, 30000, 2, true⟩ 1 0 = 0 := by
    simp only [calculateDelay, hminB]
    rw [Int.floor_eq_iff] <;> norm_num
  rw [hA, hB, hminA, hminB]
  norm_num

/-- C4 (corrected): the un-jittered computed delay equals
`⌊min(baseDelay·multiplier^(attempt-1), maxDelay)⌋` (the source floors
the value), it is non-decreasing in the attempt number and capped at
`maxDelay`; with jitter enabled and random draw `r ∈ [0,1)`, the
realized delay is `⌊computed·(1/2 + r/2)⌋`, which lies in the interval
`(computed/2 − 1, computed]` — the flooring can undershoot the claimed
closed lower bound `computed/2` by less than one millisecond. -/
theorem claim_c4_amended (config : RetryConfig) (hbase : 0 ≤ config.baseDelay)
    (hmax : 0 ≤ config.maxDelay) (hmult : 1 ≤ config.backoffMultiplier) :
    (config.jitter = false → ∀ (a : Nat) (r : ℚ),
      calculateDelay config a r =
        ⌊min (config.baseDelay * config.backoffMultiplier ^ (a - 1)) config.maxDelay⌋) ∧
    (config.jitter = false → ∀ (a b : Nat) (r r' : ℚ), a ≤ b →
      calculateDelay config a r ≤ calculateDelay config b r') ∧
    (config.jitter = true → ∀ (a : Nat) (r : ℚ), 0 ≤ r → r < 1 →
      ((calculateDelay config a r : ℚ) ≤
          min (config.baseDelay * config.backoffMultiplier ^ (a - 1)) config.maxDelay ∧
        min (config.baseDelay * config.backoffMultiplier ^ (a - 1)) config.maxDelay / 2 - 1 <
          (calculateDelay config a r : ℚ))) ∧
    (∀ (a : Nat) (r : ℚ), 0 ≤ r → r < 1 →
      (calculateDelay config a r : ℚ) ≤ config.maxDelay) := by
  have hpow : ∀ a : Nat, (0 : ℚ) ≤ config.backoffMultiplier ^ a :=
    fun a => pow_nonneg (le_trans zero_le_one hmult) a
  have hcnn : ∀ a : Nat,
      (0 : ℚ) ≤ min (config.baseDelay * config.backoffMultiplier ^ (a - 1)) config.maxDelay :=
    fun a => le_min (by positivity) hmax
  refine ⟨?_, ?_, ?_, ?_⟩
  · intro hj a r
    simp [calculateDelay, hj]
  · intro hj a b r r' hab
    simp only [calculateDelay, hj, Bool.false_eq_true, if_false]
    apply Int.floor_le_floor
    apply min_le_min _ le_rfl
    apply mul_le_mul_of_nonneg_left _ hbase
    exact pow_le_pow_right₀ hmult (Nat.sub_le_sub_right hab 1)
  · intro hj a r h0 h1
    simp only [calculateDelay, hj, if_true]
    constructor
    · apply le_trans (Int.floor_le _)
      apply mul_le_of_le_one_right (hcnn a)
      linarith
    · have hlow : min (config.baseDelay * config.backoffMultiplier ^ (a - 1)) config.maxDelay * (1/2) ≤
          min (config.baseDelay * config.backoffMultiplier ^ (a - 1)) config.maxDelay * (1/2 + r * (1/2)) :=
        mul_le_mul_of_nonneg_left (by linarith) (hcnn a)
      have hfl := Int.sub_one_lt_floor
        (min (config.baseDelay * config.backoffMultiplier ^ (a - 1)) config.maxDelay * (1/2 + r * (1/2)))
      linarith
  · intro a r h0 h1
    cases hj : config.jitter
    · simp only [calculateDelay, hj, Bool.false_eq_true, if_false]
      exact le_trans (Int.floor_le _) (min_le_right _ _)
    · simp only [calculateDelay, hj, if_true]
      apply le_trans (Int.floor_le _)
      apply le_trans (mul_le_of_le_one_right (hcnn a) (by linarith))
      exact min_le_right _ _

/-- Witness for C4 (corrected) at the default configuration: attempt 2,
random draw 0 — the realized delay obeys both jitter bounds and the
`maxDelay` cap. -/
theorem claim_c4_witness :
    (0 : ℚ) ≤ (1000 : ℚ) ∧
    ((calculateDelay defaultRetryConfig 2 0 : ℚ) ≤
        min (defaultRetryConfig.baseDelay * defaultRetryConfig.backoffMultiplier ^ (2 - 1))
          defaultRetryConfig.maxDelay ∧
      min (defaultRetryConfig.baseDelay * defaultRetryConfig.backoffMultiplier ^ (2 - 1))
          defaultRetryConfig.maxDelay / 2 - 1 < (calculateDelay defaultRetryConfig 2 0 : ℚ)) ∧
    (calculateDelay defaultRetryConfig 2 0 : ℚ) ≤ defaultRetryConfig.maxDelay := by
  have h := claim_c4_amended defaultRetryConfig (by norm_num [defaultRetryConfig])
    (by norm_num [defaultRetryConfig]) (by norm_num [defaultRetryConfig])
  exact ⟨by norm_num, h.2.2.1 rfl 2 0 le_rfl (by norm_num), h.2.2.2 2 0 le_rfl (by norm_num)⟩

/-! ## Retry-engine helper lemmas -/

/-- The retryability verdict of classification depends only on the raw
error and the context string, not on the key, attempt number or clock. -/
def classifyRetryable (e : RawError) (ctx : String) : Bool :=
  (categorizeError e "" 0 ctx 0).retryable

lemma categorizeError_retryable (e : RawError) (url : String) (a : Nat)
    (ctx : String) (n : Nat) :
    (categorizeError e url a ctx n).retryable = classifyRetryable e ctx := rfl

@[simp] lemma categorizeError_attempt (e : RawError) (url : String) (a : Nat)
    (ctx : String) (n : Nat) :
    (categorizeError e url a ctx n).attempt = a := rfl

lemma setBreaker_eq_of_lookup (d : String) (cb : CircuitBreaker) :
    ∀ bs : List (String × CircuitBreaker),
      lookupBreaker bs d = some cb → setBreaker bs d cb = bs
  | [], h => by simp [lookupBreaker] at h
  | (k, c) :: rest, h => by
    by_cases hk : k = d
    · subst hk
      have h2 : c = cb := by simpa [lookupBreaker] using h
      subst h2
      simp [setBreaker]
    · simp only [lookupBreaker, if_neg hk] at h
      simp [setBreaker, hk, setBreaker_eq_of_lookup d cb rest h]

lemma lookupBreaker_append_self (d : String) (cb : CircuitBreaker) :
    ∀ bs : List (String × CircuitBreaker),
      lookupBreaker bs d = none → lookupBreaker (bs ++ [(d, cb)]) d = some cb
  | [], _ => by simp [lookupBreaker]
  | (k, c) :: rest, h => by
    by_cases hk : k = d
    · subst hk; simp [lookupBreaker] at h
    · simp only [lookupBreaker, if_neg hk] at h
      simp [lookupBreaker, hk, lookupBreaker_append_self d cb rest h]

lemma lookupBreaker_ensure (bs : List (String × CircuitBreaker)) (d : String) :
    lookupBreaker (ensureBreaker bs d) d =
      some ((lookupBreaker bs d).getD CircuitBreaker.new) := by
  unfold ensureBreaker
  cases h : lookupBreaker bs d with
  | some cb => simpa [h]
  | none => simpa [h] using lookupBreaker_append_self d CircuitBreaker.new bs h

/-- Short-circuit behaviour: when the breaker of the key's domain is
already present, at the failure threshold, and within the reset window,
`executeWithRetry` throws the circuit-open `RetryableError` without
touching the operation or the state. -/
lemma executeWithRetry_open {T : Type} (config : RetryConfig) (op : Nat → OpOutcome T)
    (opTime : Nat → Nat) (rand : Nat → ℚ) (url context : String) (st : RMState)
    (cb : CircuitBreaker)
    (hcb : lookupBreaker st.breakers (extractDomain url) = some cb)
    (hth : failureThreshold ≤ cb.failures)
    (hrecent : st.now - cb.lastFailureTime ≤ resetTimeout) :
    executeWithRetry config op opTime rand url context st =
      { result := Except.error (RetryError.retryableErr ErrorType.NETWORK_ERROR
          ("Circuit breaker is open for domain " ++ extractDomain url) false),
        state := st, invocations := 0, errors := [] } := by
  have hens : ensureBreaker st.breakers (extractDomain url) = st.breakers := by
    unfold ensureBreaker; rw [hcb]
  have hopen : cb.isOpen st.now = (true, cb) := by
    unfold CircuitBreaker.isOpen
    rw [if_neg (by omega), if_neg (by omega)]
  simp only [executeWithRetry, hens, hcb, Option.getD_some, hopen, if_true]
  rw [setBreaker_eq_of_lookup _ _ _ hcb]

/-- Step equation: a successful invocation ends the loop with
`recordSuccess` applied to the domain's breaker. -/
lemma retryLoop_succ_ok {T : Type} (config : RetryConfig) (op : Nat → OpOutcome T)
    (opTime : Nat → Nat) (rand : Nat → ℚ) (url context domain : String)
    (attempt rem : Nat) (st : RMState) (inv : Nat) (lastErr : Option DetailedError)
    (errs : List DetailedError) (v : T) (hoi : op inv = OpOutcome.ok v) :
    retryLoop config op opTime rand url context domain attempt (rem + 1) st inv lastErr errs =
      { result := Except.ok v,
        state := ⟨setBreaker st.breakers domain
            ((lookupBreaker st.breakers domain).getD CircuitBreaker.new).recordSuccess,
          st.now + opTime inv⟩,
        invocations := inv + 1, errors := errs } := by
  simp [retryLoop, hoi]

/-- Step equation: a failed invocation that is non-retryable or out of
attempts ends the loop with the classified error. -/
lemma retryLoop_succ_err_break {T : Type} (config : RetryConfig) (op : Nat → OpOutcome T)
    (opTime : Nat → Nat) (rand : Nat → ℚ) (url context domain : String)
    (attempt rem : Nat) (st : RMState) (inv : Nat) (lastErr : Option DetailedError)
    (errs : List DetailedError) (e : RawError) (hoi : op inv = OpOutcome.err e)
    (hbr : (categorizeError e url attempt context (st.now + opTime inv)).retryable = false ∨
      rem = 0) :
    retryLoop config op opTime rand url context domain attempt (rem + 1) st inv lastErr errs =
      { result := Except.error (RetryError.detailed
          (categorizeError e url attempt context (st.now + opTime inv))),
        state := ⟨setBreaker st.breakers domain
            (((lookupBreaker st.breakers domain).getD CircuitBreaker.new).recordFailure
              (st.now + opTime inv)),
          st.now + opTime inv⟩,
        invocations := inv + 1,
        errors := errs ++ [categorizeError e url attempt context (st.now + opTime inv)] } := by
  simp only [retryLoop, hoi]
  rw [if_pos hbr]

/-- Step equation: a failed invocation that is retryable with attempts
remaining sleeps for the computed delay and recurses. -/
lemma retryLoop_succ_err_cont {T : Type} (config : RetryConfig) (op : Nat → OpOutcome T)
    (opTime : Nat → Nat) (rand : Nat → ℚ) (url context domain : String)
    (attempt rem : Nat) (st : RMState) (inv : Nat) (lastErr : Option DetailedError)
    (errs : List DetailedError) (e : RawError) (hoi : op inv = OpOutcome.err e)
    (hbr : ¬ ((categorizeError e url attempt context (st.now + opTime inv)).retryable = false ∨
      rem = 0)) :
    retryLoop config op opTime rand url context domain attempt (rem + 1) st inv lastErr errs =
      retryLoop config op opTime rand url context domain (attempt + 1) rem
        ⟨setBreaker st.breakers domain
            (((lookupBreaker st.breakers domain).getD CircuitBreaker.new).recordFailure
              (st.now + opTime inv)),
          st.now + opTime inv + (calculateDelay config attempt (rand attempt)).toNat⟩
        (inv + 1)
        (some (categorizeError e url attempt context (st.now + opTime inv)))
        (errs ++ [categorizeError e url attempt context (st.now + opTime inv)]) := by
  simp only [retryLoop, hoi]
  rw [if_neg hbr]

/-- The attempt loop on an operation that fails on every invocation with
a retryably-classified error: it runs through all remaining attempts and
ends with the classified error of the last one. -/
lemma retryLoop_allfail {T : Type} (config : RetryConfig) (op : Nat → OpOutcome T)
    (opTime : Nat → Nat) (rand : Nat → ℚ) (url context domain : String) (e : RawError)
    (hop : ∀ n, op n = OpOutcome.err e)
    (hret : classifyRetryable e context = true) :
    ∀ (rem : Nat), 1 ≤ rem → ∀ (attempt : Nat) (st : RMState) (inv : Nat)
      (lastErr : Option DetailedError) (errs : List DetailedError),
      (retryLoop config op opTime rand url context domain attempt rem st inv lastErr errs).invocations
          = inv + rem ∧
      ∃ de : DetailedError,
        (retryLoop config op opTime rand url context domain attempt rem st inv lastErr errs).result
            = Except.error (RetryError.detailed de) ∧
          de.attempt = attempt + rem - 1
  | 0, h => absurd h (by omega)
  | 1, _ => by
    intro attempt st inv lastErr errs
    rw [retryLoop_succ_err_break config op opTime rand url context domain attempt 0 st inv
      lastErr errs e (hop inv) (Or.inr rfl)]
    exact ⟨rfl, _, rfl, by simp⟩
  | rem + 2, _ => by
    intro attempt st inv lastErr errs
    rw [retryLoop_succ_err_cont config op opTime rand url context domain attempt (rem + 1) st inv
      lastErr errs e (hop inv) (by rw [categorizeError_retryable, hret]; simp)]
    obtain ⟨h1, de, h2, h3⟩ := retryLoop_allfail config op opTime rand url context domain e hop hret
      (rem + 1) (by omega) (attempt + 1)
      ⟨setBreaker st.breakers domain
          (((lookupBreaker st.breakers domain).getD CircuitBreaker.new).recordFailure
            (st.now + opTime inv)),
        st.now + opTime inv + (calculateDelay config attempt (rand attempt)).toNat⟩
      (inv + 1)
      (some (categorizeError e url attempt context (st.now + opTime inv)))
      (errs ++ [categorizeError e url attempt context (st.now + opTime inv)])
    exact ⟨h1.trans (by omega), de, h2, h3.trans (by omega)⟩

/-- Every classified error the attempt loop produces carries an attempt
number in the window `[attempt, attempt + rem - 1]` (unless it was
already in the accumulator). -/
lemma retryLoop_errors_bound {T : Type} (config : RetryConfig) (op : Nat → OpOutcome T)
    (opTime : Nat → Nat) (rand : Nat → ℚ) (url context domain : String) :
    ∀ (rem attempt : Nat) (st : RMState) (inv : Nat) (lastErr : Option DetailedError)
      (errs : List DetailedError),
      ∀ de ∈ (retryLoop config op opTime rand url context domain attempt rem st inv lastErr errs).errors,
        de ∈ errs ∨ (attempt ≤ de.attempt ∧ de.attempt ≤ attempt + rem - 1)
  | 0, attempt, st, inv, lastErr, errs => by
    intro de hde
    exact Or.inl hde
  | rem + 1, attempt, st, inv, lastErr, errs => by
    intro de hde
    cases hoi : op inv with
    | ok v =>
      rw [retryLoop_succ_ok config op opTime rand url context domain attempt rem st inv
        lastErr errs v hoi] at hde
      exact Or.inl hde
    | err e =>
      by_cases hbr : (categorizeError e url attempt context (st.now + opTime inv)).retryable
          = false ∨ rem = 0
      · rw [retryLoop_succ_err_break config op opTime rand url context domain attempt rem st inv
          lastErr errs e hoi hbr] at hde
        rcases List.mem_append.mp hde with h | h
        · exact Or.inl h
        · refine Or.inr ?_
          rw [List.mem_singleton.mp h]
          simp only [categorizeError_attempt]
          omega
      · rw [retryLoop_succ_err_cont config op opTime rand url context domain attempt rem st inv
          lastErr errs e hoi hbr] at hde
        have ih := retryLoop_errors_bound config op opTime rand url context domain
          rem (attempt + 1) _ (inv + 1) _ _ de hde
        rcases ih with h | h
        · rcases List.mem_append.mp h with h2 | h2
          · exact Or.inl h2
          · refine Or.inr ?_
            rw [List.mem_singleton.mp h2]
            simp only [categorizeError_attempt]
            omega
        · have hrem : rem ≠ 0 := fun hz => hbr (Or.inr hz)
          exact Or.inr (by omega)

/-- Every classified error produced by one `executeWithRetry` call has a
1-indexed attempt number bounded by `maxAttempts`. -/
lemma executeWithRetry_errors_bound {T : Type} (config : RetryConfig) (op : Nat → OpOutcome T)
    (opTime : Nat → Nat) (rand : Nat → ℚ) (url context : String) (st : RMState) :
    ∀ de ∈ (executeWithRetry config op opTime rand url context st).errors,
      1 ≤ de.attempt ∧ de.attempt ≤ config.maxAttempts := by
  intro de hde
  simp only [executeWithRetry] at hde
  split at hde
  · simp at hde
  · have h := retryLoop_errors_bound config op opTime rand url context (extractDomain url)
      config.maxAttempts 1 _ 0 none [] de hde
    rcases h with h | h
    · simp at h
    · omega

/-- The state evolution and invocation count of the attempt loop do not
depend on the key string (it is only recorded inside the produced
errors), as long as the breaker domain is the same. -/
lemma retryLoop_state_inv_url {T : Type} (config : RetryConfig) (op : Nat → OpOutcome T)
    (opTime : Nat → Nat) (rand : Nat → ℚ) (context domain : String) (u1 u2 : String) :
    ∀ (rem attempt : Nat) (st : RMState) (inv : Nat)
      (l1 l2 : Option DetailedError) (e1 e2 : List DetailedError),
      (retryLoop config op opTime rand u1 context domain attempt rem st inv l1 e1).state =
          (retryLoop config op opTime rand u2 context domain attempt rem st inv l2 e2).state ∧
      (retryLoop config op opTime rand u1 context domain attempt rem st inv l1 e1).invocations =
          (retryLoop config op opTime rand u2 context domain attempt rem st inv l2 e2).invocations
  | 0, attempt, st, inv, l1, l2, e1, e2 => ⟨rfl, rfl⟩
  | rem + 1, attempt, st, inv, l1, l2, e1, e2 => by
    cases hoi : op inv with
    | ok v =>
      rw [retryLoop_succ_ok config op opTime rand u1 context domain attempt rem st inv
          l1 e1 v hoi,
        retryLoop_succ_ok config op opTime rand u2 context domain attempt rem st inv
          l2 e2 v hoi]
      exact ⟨rfl, rfl⟩
    | err e =>
      by_cases hbr : classifyRetryable e context = false ∨ rem = 0
      · rw [retryLoop_succ_err_break config op opTime rand u1 context domain attempt rem st inv
            l1 e1 e hoi (by rw [categorizeError_retryable]; exact hbr),
          retryLoop_succ_err_break config op opTime rand u2 context domain attempt rem st inv
            l2 e2 e hoi (by rw [categorizeError_retryable]; exact hbr)]
        exact ⟨rfl, rfl⟩
      · rw [retryLoop_succ_err_cont config op opTime rand u1 context domain attempt rem st inv
            l1 e1 e hoi (by rw [categorizeError_retryable]; exact hbr),
          retryLoop_succ_err_cont config op opTime rand u2 context domain attempt rem st inv
            l2 e2 e hoi (by rw [categorizeError_retryable]; exact hbr)]
        exact retryLoop_state_inv_url config op opTime rand context domain u1 u2
          rem (attempt + 1) _ (inv + 1) _ _ _ _

/-- `executeWithRetry`'s state evolution and invocation count depend on
the key only through its extracted domain. -/
lemma executeWithRetry_state_inv {T : Type} (config : RetryConfig) (op : Nat → OpOutcome T)
    (opTime : Nat → Nat) (rand : Nat → ℚ) (context : String) (u1 u2 : String) (st : RMState)
    (hdom : extractDomain u1 = extractDomain u2) :
    (executeWithRetry config op opTime rand u1 context st).state =
        (executeWithRetry config op opTime rand u2 context st).state ∧
    (executeWithRetry config op opTime rand u1 context st).invocations =
        (executeWithRetry config op opTime rand u2 context st).invocations := by
  simp only [executeWithRetry, hdom]
  split
  · exact ⟨rfl, rfl⟩
  · exact retryLoop_state_inv_url config op opTime rand context (extractDomain u2) u1 u2
      config.maxAttempts 1 _ 0 none none [] []

/-! ## C1: open circuit fails fast without invoking the operation -/

/-- C1 (confirmed): when the key's breaker is open at entry (failure
count at the threshold, reset window not expired), `executeWithRetry`
fails immediately with a network-kind classified error whose `retryable`
flag is `false`, the operation is never invoked (zero invocations), no
per-attempt classified error is produced, and the manager state is left
unchanged. -/
theorem claim_c1 {T : Type} (config : RetryConfig) (op : Nat → OpOutcome T)
    (opTime : Nat → Nat) (rand : Nat → ℚ) (url context : String) (st : RMState)
    (cb : CircuitBreaker)
    (hcb : lookupBreaker st.breakers (extractDomain url) = some cb)
    (hth : failureThreshold ≤ cb.failures)
    (hrecent : st.now - cb.lastFailureTime ≤ resetTimeout) :
    (executeWithRetry config op opTime rand url context st).invocations = 0 ∧
    (executeWithRetry config op opTime rand url context st).result =
      Except.error (RetryError.retryableErr ErrorType.NETWORK_ERROR
        ("Circuit breaker is open for domain " ++ extractDomain url) false) ∧
    (executeWithRetry config op opTime rand url context st).errors = [] ∧
    (executeWithRetry config op opTime rand url context st).state = st := by
  rw [executeWithRetry_open config op opTime rand url context st cb hcb hth hrecent]
  exact ⟨rfl, rfl, rfl, rfl⟩

/-- Witness for C1: a breaker for `a.example` with 5 straight failures
1 second ago short-circuits a call keyed by an `a.example` URL. -/
theorem claim_c1_witness :
    (executeWithRetry defaultRetryConfig (fun _ => OpOutcome.ok (7 : Nat)) (fun _ => 0)
        (fun _ => 0) "https://a.example/page" "scraping"
        ⟨[("a.example", ⟨5, 0, 1000⟩)], 2000⟩).invocations = 0 ∧
    (executeWithRetry defaultRetryConfig (fun _ => OpOutcome.ok (7 : Nat)) (fun _ => 0)
        (fun _ => 0) "https://a.example/page" "scraping"
        ⟨[("a.example", ⟨5, 0, 1000⟩)], 2000⟩).result =
      Except.error (RetryError.retryableErr ErrorType.NETWORK_ERROR
        ("Circuit breaker is open for domain " ++ extractDomain "https://a.example/page") false) := by
  have h := claim_c1 defaultRetryConfig (fun _ => OpOutcome.ok (7 : Nat)) (fun _ => 0)
    (fun _ => 0) "https://a.example/page" "scraping"
    ⟨[("a.example", ⟨5, 0, 1000⟩)], 2000⟩ ⟨5, 0, 1000⟩ (by decide) (by decide) (by decide)
  exact ⟨h.1, h.2.1⟩

/-- With a closed breaker at entry and an operation failing every
invocation with a retryably-classified error, `executeWithRetry` invokes
the operation exactly `maxAttempts` times and propagates the classified
error of the last attempt. -/
lemma executeWithRetry_allfail {T : Type} (config : RetryConfig) (op : Nat → OpOutcome T)
    (opTime : Nat → Nat) (rand : Nat → ℚ) (url context : String) (st : RMState) (e : RawError)
    (hclosed : ((((lookupBreaker st.breakers (extractDomain url)).getD
        CircuitBreaker.new)).isOpen st.now).1 = false)
    (hop : ∀ n, op n = OpOutcome.err e)
    (hret : classifyRetryable e context = true)
    (hmax1 : 1 ≤ config.maxAttempts) :
    (executeWithRetry config op opTime rand url context st).invocations = config.maxAttempts ∧
    ∃ de : DetailedError,
      (executeWithRetry config op opTime rand url context st).result =
          Except.error (RetryError.detailed de) ∧ de.attempt = config.maxAttempts := by
  simp only [executeWithRetry, lookupBreaker_ensure, Option.getD_some]
  rw [hclosed]
  simp only [Bool.false_eq_true, if_false]
  cases hm : config.maxAttempts with
  | zero => omega
  | succ m =>
    obtain ⟨hinv, de, hres, hatt⟩ := retryLoop_allfail config op opTime rand url context
      (extractDomain url) e hop hret (m + 1) (by omega) 1
      ⟨setBreaker (ensureBreaker st.breakers (extractDomain url)) (extractDomain url)
          ((((lookupBreaker st.breakers (extractDomain url)).getD
            CircuitBreaker.new)).isOpen st.now).2,
        st.now⟩
      0 none []
    exact ⟨hinv.trans (by omega), de, hres, hatt.trans (by omega)⟩

/-! ## C3: exhaustion after maxAttempts retryable failures -/

/-- C3 (confirmed): with `maxAttempts = 3`, a closed circuit at entry
and an operation failing every invocation with a retryably-classified
error, `executeWithRetry` invokes the operation exactly 3 times and
propagates a final classified error whose `attempt` field is 3; and in
general every classified error produced by any `executeWithRetry` call
has a 1-indexed `attempt` that never exceeds `maxAttempts`. -/
theorem claim_c3 {T : Type} (config : RetryConfig) (op : Nat → OpOutcome T)
    (opTime : Nat → Nat) (rand : Nat → ℚ) (url context : String) (st : RMState) (e : RawError)
    (hmax : config.maxAttempts = 3)
    (hclosed : ∀ cb, lookupBreaker st.breakers (extractDomain url) = some cb →
      (cb.isOpen st.now).1 = false)
    (hop : ∀ n, op n = OpOutcome.err e)
    (hret : (categorizeError e url 1 context 0).retryable = true) :
    (executeWithRetry config op opTime rand url context st).invocations = 3 ∧
    (∃ de : DetailedError,
      (executeWithRetry config op opTime rand url context st).result =
          Except.error (RetryError.detailed de) ∧ de.attempt = 3) ∧
    (∀ (T2 : Type) (config2 : RetryConfig) (op2 : Nat → OpOutcome T2) (opTime2 : Nat → Nat)
      (rand2 : Nat → ℚ) (url2 context2 : String) (st2 : RMState),
      ∀ de ∈ (executeWithRetry config2 op2 opTime2 rand2 url2 context2 st2).errors,
        1 ≤ de.attempt ∧ de.attempt ≤ config2.maxAttempts) := by
  have hret' : classifyRetryable e context = true := by
    rw [← categorizeError_retryable e url 1 context 0]
    exact hret
  have hopen : ((((lookupBreaker st.breakers (extractDomain url)).getD
      CircuitBreaker.new)).isOpen st.now).1 = false := by
    cases h : lookupBreaker st.breakers (extractDomain url) with
    | some cb => simpa using hclosed cb h
    | none => simp [CircuitBreaker.isOpen, CircuitBreaker.new, failureThreshold]
  obtain ⟨hinv, hres⟩ := executeWithRetry_allfail config op opTime rand url context st e
    hopen hop hret' (by omega)
  refine ⟨hmax ▸ hinv, ?_, ?_⟩
  · obtain ⟨de, h1, h2⟩ := hres
    exact ⟨de, h1, hmax ▸ h2⟩
  · intro T2 config2 op2 opTime2 rand2 url2 context2 st2
    exact executeWithRetry_errors_bound config2 op2 opTime2 rand2 url2 context2 st2

/-- Witness for C3: the default configuration (3 attempts), an empty
breaker map, and an operation that always throws a retryable unknown
error — exactly 3 invocations and a final error with `attempt = 3`. -/
theorem claim_c3_witness :
    (executeWithRetry defaultRetryConfig
        (fun _ => (OpOutcome.err ⟨none, none, some "boom", ErrorType.UNKNOWN_ERROR, true⟩ : OpOutcome Unit))
        (fun _ => 0) (fun _ => 0) "http://a.example/" "scraping" ⟨[], 0⟩).invocations = 3 ∧
    ∃ de : DetailedError,
      (executeWithRetry defaultRetryConfig
          (fun _ => (OpOutcome.err ⟨none, none, some "boom", ErrorType.UNKNOWN_ERROR, true⟩ : OpOutcome Unit))
          (fun _ => 0) (fun _ => 0) "http://a.example/" "scraping" ⟨[], 0⟩).result =
        Except.error (RetryError.detailed de) ∧ de.attempt = 3 := by
  have h := claim_c3 defaultRetryConfig
    (fun _ => (OpOutcome.err ⟨none, none, some "boom", ErrorType.UNKNOWN_ERROR, true⟩ : OpOutcome Unit))
    (fun _ => 0) (fun _ => 0) "http://a.example/" "scraping" ⟨[], 0⟩
    ⟨none, none, some "boom", ErrorType.UNKNOWN_ERROR, true⟩ rfl
    (fun cb hcb => by simp [lookupBreaker] at hcb) (fun n => rfl) (by decide)
  exact ⟨h.1, h.2.1⟩

/-! ## C10: unparseable keys share the "unknown" domain -/

lemma schemeSplit_none : ∀ (l : List Char), ':' ∉ l → schemeSplit l = none
  | [], _ => rfl
  | c :: rest, h => by
    have hc : ¬ (c = ':') := fun hh => h (hh ▸ List.mem_cons_self c rest)
    simp only [schemeSplit, if_neg hc]
    split_ifs with hs
    · exact schemeSplit_none rest fun hm => h (List.mem_cons_of_mem c hm)
    · rfl

/-- A key without a colon cannot parse as a URL. -/
lemma urlHostname_none (url : String) (h : ':' ∉ url.toList) : urlHostname url = none := by
  unfold urlHostname
  cases hl : url.toList with
  | nil => rfl
  | cons c rest =>
    rw [hl] at h
    dsimp only
    split_ifs with ha
    · rw [schemeSplit_none rest fun hm => h (List.mem_cons_of_mem c hm)]
    · rfl

/-- A key without a colon is mapped to the domain `"unknown"`. -/
lemma extractDomain_unknown (url : String) (h : ':' ∉ url.toList) :
    extractDomain url = "unknown" := by
  unfold extractDomain
  rw [urlHostname_none url h]

/-- C10 (confirmed): every key that does not parse as a URL (here: any
key without a colon, such as the literal `"AI-extraction"` used for the
feature-extraction calls) is mapped to the single domain `"unknown"`, so
all such keys share one circuit-breaker state: the state evolution and
invocation count of `executeWithRetry` are identical for any two such
keys, and once the shared `"unknown"` breaker is open — no matter which
key's failures opened it — a call under any other unparseable key fails
without invoking its operation. -/
theorem claim_c10 (k1 k2 : String) (h1 : ':' ∉ k1.toList) (h2 : ':' ∉ k2.toList) :
    extractDomain k1 = "unknown" ∧ extractDomain k2 = "unknown" ∧
    (∀ (T : Type) (config : RetryConfig) (op : Nat → OpOutcome T) (opTime : Nat → Nat)
      (rand : Nat → ℚ) (context : String) (st : RMState),
      (executeWithRetry config op opTime rand k1 context st).state =
          (executeWithRetry config op opTime rand k2 context st).state ∧
      (executeWithRetry config op opTime rand k1 context st).invocations =
          (executeWithRetry config op opTime rand k2 context st).invocations) ∧
    (∀ (T : Type) (config : RetryConfig) (op : Nat → OpOutcome T) (opTime : Nat → Nat)
      (rand : Nat → ℚ) (context : String) (st : RMState) (cb : CircuitBreaker),
      lookupBreaker st.breakers "unknown" = some cb → failureThreshold ≤ cb.failures →
      st.now - cb.lastFailureTime ≤ resetTimeout →
      (executeWithRetry config op opTime rand k2 context st).invocations = 0) := by
  have e1 := extractDomain_unknown k1 h1
  have e2 := extractDomain_unknown k2 h2
  refine ⟨e1, e2, ?_, ?_⟩
  · intro T config op opTime rand context st
    exact executeWithRetry_state_inv config op opTime rand context k1 k2 st (e1.trans e2.symm)
  · intro T config op opTime rand context st cb hcb hth hr
    rw [executeWithRetry_open config op opTime rand k2 context st cb (by rwa [e2]) hth hr]

/-- Witness for C10: `"AI-extraction"` and another unparseable key both
map to `"unknown"`, and an open `"unknown"` breaker blocks a call keyed
by the second one without invoking its operation. -/
theorem claim_c10_witness :
    extractDomain "AI-extraction" = "unknown" ∧
    extractDomain "no colon here" = "unknown" ∧
    (executeWithRetry defaultRetryConfig (fun _ => OpOutcome.ok (0 : Nat)) (fun _ => 0)
        (fun _ => 0) "no colon here" "feature extraction"
        ⟨[("unknown", ⟨5, 0, 500⟩)], 1000⟩).invocations = 0 := by
  have h := claim_c10 "AI-extraction" "no colon here" (by decide) (by decide)
  exact ⟨h.1, h.2.1,
    h.2.2.2 Nat defaultRetryConfig (fun _ => OpOutcome.ok (0 : Nat)) (fun _ => 0) (fun _ => 0)
      "feature extraction" ⟨[("unknown", ⟨5, 0, 500⟩)], 1000⟩ ⟨5, 0, 500⟩ rfl (by decide)
      (by decide)⟩

/-! ## Batch-coordinator helper lemmas -/

lemma processUrl_url {F : Type} (behavior : String → ItemOutcome F) (now : Nat) (u : String) :
    (processUrl behavior now u).url = u := by
  unfold processUrl
  cases behavior u with
  | features f => cases f <;> rfl
  | thrown e => rfl

lemma chunksGo_join {α : Type} (n : Nat) (hn : 1 ≤ n) :
    ∀ (fuel : Nat) (l : List α), l.length ≤ fuel → (chunksGo n fuel l).flatten = l
  | fuel, [], _ => by cases fuel <;> rfl
  | 0, a :: as, h => by simp at h
  | fuel + 1, a :: as, h => by
    simp only [chunksGo, List.flatten_cons]
    rw [chunksGo_join n hn fuel ((a :: as).drop n)
      (by simp only [List.length_drop]; simp at h ⊢; omega)]
    exact List.take_append_drop n (a :: as)

lemma chunksOf_join {α : Type} (n : Nat) (l : List α) (hn : 1 ≤ n) :
    (chunksOf n l).flatten = l := by
  unfold chunksOf
  rw [if_neg (by simp; omega)]
  exact chunksGo_join n hn l.length l le_rfl

lemma chunksOf_nil {α : Type} (n : Nat) : chunksOf n ([] : List α) = [] := by
  unfold chunksOf
  split_ifs <;> rfl

lemma runBatches_results {F : Type} (behavior : String → ItemOutcome F)
    (persistOk : String → Bool) (now : Nat) :
    ∀ (bs : List (List String)) (k : Nat),
      (runBatches behavior persistOk now bs k).results = bs.flatten.map (processUrl behavior now)
  | [], _ => rfl
  | b :: rest, k => by
    simp only [runBatches, List.flatten_cons, List.map_append]
    rw [runBatches_results behavior persistOk now rest (k + 1)]

/-- The result list does not depend on the persistence outcome. -/
lemma runBatches_results_indep {F : Type} (behavior : String → ItemOutcome F)
    (p1 p2 : String → Bool) (now : Nat) (bs : List (List String)) (k : Nat) :
    (runBatches behavior p1 now bs k).results = (runBatches behavior p2 now bs k).results := by
  rw [runBatches_results, runBatches_results]

/-- Recognizer for operation-launch events. -/
def isInvokeEvent {F : Type} : Event F → Bool
  | Event.invoke _ _ => true
  | _ => false

lemma countP_map_true {F α : Type} (l : List α) (f : α → Event F)
    (hf : ∀ x, isInvokeEvent (f x) = true) : (l.map f).countP isInvokeEvent = l.length := by
  induction l with
  | nil => rfl
  | cons a as ih => simp [List.countP_cons, hf, ih]

lemma countP_map_false {F α : Type} (l : List α) (f : α → Event F)
    (hf : ∀ x, isInvokeEvent (f x) = false) : (l.map f).countP isInvokeEvent = 0 := by
  induction l with
  | nil => rfl
  | cons a as ih => simp [List.countP_cons, hf, ih]

/-- The trace launches each pending item exactly once: the number of
`invoke` events equals the total number of items across the windows. -/
lemma trace_countP_invoke {F : Type} (behavior : String → ItemOutcome F)
    (persistOk : String → Bool) (now : Nat) :
    ∀ (bs : List (List String)) (k0 : Nat),
      (runBatches behavior persistOk now bs k0).trace.countP isInvokeEvent = bs.flatten.length
  | [], _ => rfl
  | b :: rest, k0 => by
    simp only [runBatches, List.countP_append, List.flatten_cons, List.length_append]
    rw [trace_countP_invoke behavior persistOk now rest (k0 + 1)]
    rw [countP_map_true b (Event.invoke k0) (fun x => rfl)]
    rw [countP_map_false (b.map (processUrl behavior now))
      (fun r => Event.settle k0 r.url r) (fun x => rfl)]
    rw [countP_map_false ((b.map (processUrl behavior now)).filter
        fun r => r.success && r.data.isSome)
      (fun r => Event.persistEvt k0 r.url (persistOk r.url)) (fun x => rfl)]
    have hpause : (if rest.isEmpty then ([] : List (Event F)) else [Event.pause k0]).countP
        isInvokeEvent = 0 := by
      cases rest <;> simp [isInvokeEvent, List.countP_cons]
    omega

/-- Only pending items are ever launched. -/
lemma invoke_mem_trace {F : Type} (behavior : String → ItemOutcome F)
    (persistOk : String → Bool) (now : Nat) :
    ∀ (bs : List (List String)) (k0 k : Nat) (u : String),
      Event.invoke k u ∈ (runBatches behavior persistOk now bs k0).trace → u ∈ bs.flatten
  | [], _, _, _ => by intro h; simp [runBatches] at h
  | b :: rest, k0, k, u => by
    intro h
    simp only [runBatches, List.mem_append, or_assoc] at h
    rcases h with h | h | h | h | h
    · obtain ⟨v, hv, he⟩ := List.mem_map.mp h
      injection he with e1 e2
      subst e2
      rw [List.flatten_cons, List.mem_append]
      exact Or.inl hv
    · obtain ⟨r, _, he⟩ := List.mem_map.mp h
      exact absurd he (by simp)
    · obtain ⟨r, _, he⟩ := List.mem_map.mp h
      exact absurd he (by simp)
    · have hp : Event.invoke k u ∈ (if rest.isEmpty then ([] : List (Event F))
          else [Event.pause k0]) := h
      cases rest with
      | nil => simp at hp
      | cons c cs => simp at hp
    · rw [List.flatten_cons, List.mem_append]
      exact Or.inr (invoke_mem_trace behavior persistOk now rest (k0 + 1) k u h)

/-- Every item of window `k` (0-based) gets a `settle` event carrying
its `processUrl` result. -/
lemma settle_mem_trace {F : Type} (behavior : String → ItemOutcome F)
    (persistOk : String → Bool) (now : Nat) :
    ∀ (bs : List (List String)) (k0 j : Nat) (w : List String) (v : String),
      bs.get? j = some w → v ∈ w →
      Event.settle (k0 + j) v (processUrl behavior now v) ∈
        (runBatches behavior persistOk now bs k0).trace
  | [], _, j, _, _ => by intro h; simp at h
  | b :: rest, k0, 0, w, v => by
    intro hw hv
    have hb : b = w := by simpa using hw
    subst hb
    simp only [runBatches, List.mem_append, or_assoc, Nat.add_zero]
    refine Or.inr (Or.inl ?_)
    refine List.mem_map.mpr ⟨processUrl behavior now v, List.mem_map.mpr ⟨v, hv, rfl⟩, ?_⟩
    rw [processUrl_url]
  | b :: rest, k0, j + 1, w, v => by
    intro hw hv
    have ih := settle_mem_trace behavior persistOk now rest (k0 + 1) j w v (by simpa using hw) hv
    simp only [runBatches, List.mem_append, or_assoc]
    have heq : k0 + (j + 1) = (k0 + 1) + j := by omega
    rw [heq]
    exact Or.inr (Or.inr (Or.inr (Or.inr ih)))

/-- A `persistEvt` occurs only for a successful result of the run, and
its recorded outcome is what the persistence collaborator returned. -/
lemma persist_mem_trace {F : Type} (behavior : String → ItemOutcome F)
    (persistOk : String → Bool) (now : Nat) :
    ∀ (bs : List (List String)) (k0 k : Nat) (u : String) (ok : Bool),
      Event.persistEvt k u ok ∈ (runBatches behavior persistOk now bs k0).trace →
      ok = persistOk u ∧ ∃ r ∈ (runBatches behavior persistOk now bs k0).results,
        r.url = u ∧ r.success = true
  | [], _, _, _, _ => by intro h; simp [runBatches] at h
  | b :: rest, k0, k, u, ok => by
    intro h
    simp only [runBatches, List.mem_append, or_assoc] at h
    rcases h with h | h | h | h | h
    · obtain ⟨v, _, he⟩ := List.mem_map.mp h
      exact absurd he (by simp)
    · obtain ⟨r, _, he⟩ := List.mem_map.mp h
      exact absurd he (by simp)
    · obtain ⟨r, hr, he⟩ := List.mem_map.mp h
      obtain ⟨hrb, hrp⟩ := List.mem_filter.mp hr
      injection he with e1 e2 e3
      subst e2
      subst e3
      refine ⟨rfl, r, ?_, rfl, ?_⟩
      · simp only [runBatches, List.mem_append]
        exact Or.inl hrb
      · simp only [Bool.and_eq_true] at hrp
        exact hrp.1
    · have hp : Event.persistEvt k u ok ∈ (if rest.isEmpty then ([] : List (Event F))
          else [Event.pause k0]) := h
      cases rest with
      | nil => simp at hp
      | cons c cs => simp at hp
    · obtain ⟨hok, r, hr, hurl, hsucc⟩ :=
        persist_mem_trace behavior persistOk now rest (k0 + 1) k u ok h
      refine ⟨hok, r, ?_, hurl, hsucc⟩
      simp only [runBatches, List.mem_append]
      exact Or.inr hr

/-- Every event of the window loop started at window `k0` has phase at
least `4·k0`. -/
lemma trace_phase_lb {F : Type} (behavior : String → ItemOutcome F)
    (persistOk : String → Bool) (now : Nat) :
    ∀ (bs : List (List String)) (k0 : Nat),
      ∀ e ∈ (runBatches behavior persistOk now bs k0).trace, 4 * k0 ≤ phase e
  | [], _ => by intro e he; simp [runBatches] at he
  | b :: rest, k0 => by
    intro e he
    simp only [runBatches, List.mem_append, or_assoc] at he
    rcases he with h | h | h | h | h
    · obtain ⟨v, _, rfl⟩ := List.mem_map.mp h
      simp [phase]
    · obtain ⟨r, _, rfl⟩ := List.mem_map.mp h
      simp [phase]
    · obtain ⟨r, _, rfl⟩ := List.mem_map.mp h
      simp [phase]
    · have hp : e ∈ (if rest.isEmpty then ([] : List (Event F)) else [Event.pause k0]) := h
      cases rest with
      | nil => simp at hp
      | cons c cs =>
        have he2 : e = Event.pause k0 := by simpa using hp
        rw [he2]
        simp [phase]
    · have := trace_phase_lb behavior persistOk now rest (k0 + 1) e h
      omega

lemma pairwise_phase_of_const {F : Type} :
    ∀ (l : List (Event F)) (c : Nat), (∀ e ∈ l, phase e = c) →
      List.Pairwise (fun a b => phase a ≤ phase b) l
  | [], _, _ => List.Pairwise.nil
  | a :: as, c, h => by
    refine List.Pairwise.cons (fun y hy => ?_)
      (pairwise_phase_of_const as c fun e he => h e (List.mem_cons_of_mem a he))
    rw [h a (List.mem_cons_self a as), h y (List.mem_cons_of_mem a hy)]

lemma pairwise_phase_append_const {F : Type} (l1 l2 : List (Event F)) (c d : Nat)
    (h1 : List.Pairwise (fun a b => phase a ≤ phase b) l1)
    (hub : ∀ e ∈ l1, phase e ≤ c)
    (h2 : ∀ e ∈ l2, phase e = d) (hcd : c ≤ d) :
    List.Pairwise (fun a b => phase a ≤ phase b) (l1 ++ l2) ∧
      ∀ e ∈ l1 ++ l2, phase e ≤ d := by
  constructor
  · refine List.pairwise_append.mpr ⟨h1, pairwise_phase_of_const l2 d h2, ?_⟩
    intro a ha b hb
    rw [h2 b hb]
    exact le_trans (hub a ha) hcd
  · intro e he
    rcases List.mem_append.mp he with h | h
    · exact le_trans (hub e h) hcd
    · rw [h2 e h]

/-- The trace is sorted by phase: within a window, all launches precede
all settlements, which precede all persistence events, which precede the
inter-window pause, and everything in window `k` precedes everything in
window `k+1`. -/
lemma trace_pairwise {F : Type} (behavior : String → ItemOutcome F)
    (persistOk : String → Bool) (now : Nat) :
    ∀ (bs : List (List String)) (k0 : Nat),
      List.Pairwise (fun a b => phase a ≤ phase b)
        (runBatches behavior persistOk now bs k0).trace
  | [], _ => by simp [runBatches]
  | b :: rest, k0 => by
    simp only [runBatches]
    have hnext := trace_pairwise behavior persistOk now rest (k0 + 1)
    have hlb := trace_phase_lb behavior persistOk now rest (k0 + 1)
    have p1 := pairwise_phase_of_const (b.map (Event.invoke k0) : List (Event F)) (4 * k0)
      (fun e he => by obtain ⟨v, _, rfl⟩ := List.mem_map.mp he; rfl)
    have a2 := pairwise_phase_append_const (b.map (Event.invoke k0) : List (Event F))
      ((b.map (processUrl behavior now)).map fun r => Event.settle k0 r.url r)
      (4 * k0) (4 * k0 + 1) p1
      (fun e he => by obtain ⟨v, _, rfl⟩ := List.mem_map.mp he; exact le_refl _)
      (fun e he => by obtain ⟨r, _, rfl⟩ := List.mem_map.mp he; rfl)
      (by omega)
    have a3 := pairwise_phase_append_const _
      (((b.map (processUrl behavior now)).filter fun r => r.success && r.data.isSome).map
        fun r => Event.persistEvt k0 r.url (persistOk r.url))
      (4 * k0 + 1) (4 * k0 + 2) a2.1 a2.2
      (fun e he => by obtain ⟨r, _, rfl⟩ := List.mem_map.mp he; rfl)
      (by omega)
    have a4 := pairwise_phase_append_const _
      (if rest.isEmpty then ([] : List (Event F)) else [Event.pause k0])
      (4 * k0 + 2) (4 * k0 + 3) a3.1 a3.2
      (fun e he => by
        cases rest with
        | nil => simp at he
        | cons c cs =>
          have he2 : e = Event.pause k0 := by simpa using he
          rw [he2]
          rfl)
      (by omega)
    exact List.pairwise_append.mpr ⟨a4.1, hnext,
      fun a ha b hb => le_trans (a4.2 a ha) (by have := hlb b hb; omega)⟩

/-! ## C5: the batch run covers exactly the pending items -/

/-- C5 (confirmed): the run excludes every item for which `urlExists`
(the `isDone` collaborator) holds — such items are never launched and
are absent from the result list — returns exactly one `ScrapeResult` per
pending item (in order, each carrying its own URL), and no individual
item's outcome (including thrown errors, which `processUrl` converts to
failed results) can abort the run or remove other items' results. -/
theorem claim_c5 {F : Type} (maxConcurrent : Nat) (behavior : String → ItemOutcome F)
    (persistOk : String → Bool) (now : Nat) (urls : List String) (urlExists : String → Bool)
    (hmc : 1 ≤ maxConcurrent) :
    (scrapeUrls maxConcurrent behavior persistOk now urls urlExists).results =
        (urls.filter fun u => !(urlExists u)).map (processUrl behavior now) ∧
    (∀ u, urlExists u = true →
      ∀ r ∈ (scrapeUrls maxConcurrent behavior persistOk now urls urlExists).results,
        r.url ≠ u) ∧
    (∀ (k : Nat) (u : String),
      Event.invoke k u ∈ (scrapeUrls maxConcurrent behavior persistOk now urls urlExists).trace →
      urlExists u = false) ∧
    (scrapeUrls maxConcurrent behavior persistOk now urls urlExists).trace.countP
        isInvokeEvent = (urls.filter fun u => !(urlExists u)).length := by
  have hres : (scrapeUrls maxConcurrent behavior persistOk now urls urlExists).results =
      (urls.filter fun u => !(urlExists u)).map (processUrl behavior now) := by
    simp only [scrapeUrls]
    by_cases hemp : (urls.filter fun u => !(urlExists u)).isEmpty
    · rw [if_pos hemp, List.isEmpty_iff.mp hemp]
      rfl
    · rw [if_neg hemp, runBatches_results, chunksOf_join maxConcurrent _ hmc]
  have htrmem : ∀ (k : Nat) (u : String),
      Event.invoke k u ∈ (scrapeUrls maxConcurrent behavior persistOk now urls urlExists).trace →
      u ∈ urls.filter fun u => !(urlExists u) := by
    intro k u h
    simp only [scrapeUrls] at h
    by_cases hemp : (urls.filter fun u => !(urlExists u)).isEmpty
    · rw [if_pos hemp] at h
      simp at h
    · rw [if_neg hemp] at h
      have hm := invoke_mem_trace behavior persistOk now _ 0 k u h
      rwa [chunksOf_join maxConcurrent _ hmc] at hm
  refine ⟨hres, ?_, ?_, ?_⟩
  · intro u hu r hr
    rw [hres] at hr
    obtain ⟨v, hv, rfl⟩ := List.mem_map.mp hr
    rw [processUrl_url]
    intro he
    subst he
    have hfv := (List.mem_filter.mp hv).2
    rw [hu] at hfv
    simp at hfv
  · intro k u h
    have hfv := (List.mem_filter.mp (htrmem k u h)).2
    simpa using hfv
  · simp only [scrapeUrls]
    by_cases hemp : (urls.filter fun u => !(urlExists u)).isEmpty
    · rw [if_pos hemp, List.isEmpty_iff.mp hemp]
      rfl
    · rw [if_neg hemp, trace_countP_invoke, chunksOf_join maxConcurrent _ hmc]

/-- Witness for C5: 3 urls, one already stored — two results, two
launches, and the stored one excluded. -/
theorem claim_c5_witness :
    (1 : Nat) ≤ 3 ∧
    (scrapeUrls 3 (fun _ => (ItemOutcome.features (some true) : ItemOutcome Bool))
        (fun _ => true) 0 ["a", "b", "c"] (fun u => u == "b")).results =
      (["a", "b", "c"].filter fun u => !(u == "b")).map
        (processUrl (fun _ => (ItemOutcome.features (some true) : ItemOutcome Bool)) 0) ∧
    (scrapeUrls 3 (fun _ => (ItemOutcome.features (some true) : ItemOutcome Bool))
        (fun _ => true) 0 ["a", "b", "c"] (fun u => u == "b")).trace.countP
      isInvokeEvent = 2 := by
  have h := claim_c5 3 (fun _ => (ItemOutcome.features (some true) : ItemOutcome Bool))
    (fun _ => true) 0 ["a", "b", "c"] (fun u => u == "b") (by decide)
  refine ⟨by decide, h.1, ?_⟩
  rw [h.2.2.2]
  decide

/-! ## C6: when persistence happens relative to the window -/

/-- C6, counterexample to the claim as stated: in a single window
holding two items that both succeed, the first item's persistence event
occurs *after* the second item's settlement — the source persists only
after `Promise.all` has settled the entire window, not immediately upon
each item's completion. -/
theorem claim_c6_counterexample :
    Event.settle 0 "u2" (processUrl
        (fun _ => (ItemOutcome.features (some true) : ItemOutcome Bool)) 0 "u2") ∈
      (scrapeUrls 3 (fun _ => (ItemOutcome.features (some true) : ItemOutcome Bool))
        (fun _ => true) 0 ["u1", "u2"] (fun _ => false)).trace ∧
    Event.persistEvt 0 "u1" true ∈
      (scrapeUrls 3 (fun _ => (ItemOutcome.features (some true) : ItemOutcome Bool))
        (fun _ => true) 0 ["u1", "u2"] (fun _ => false)).trace ∧
    (scrapeUrls 3 (fun _ => (ItemOutcome.features (some true) : ItemOutcome Bool))
        (fun _ => true) 0 ["u1", "u2"] (fun _ => false)).trace.findIdx
        (fun e => e == Event.settle 0 "u2" (processUrl
          (fun _ => (ItemOutcome.features (some true) : ItemOutcome Bool)) 0 "u2")) <
      (scrapeUrls 3 (fun _ => (ItemOutcome.features (some true) : ItemOutcome Bool))
        (fun _ => true) 0 ["u1", "u2"] (fun _ => false)).trace.findIdx
        (fun e => e == Event.persistEvt 0 "u1" true) := by decide

/-- C6 (corrected): each successful `WorkResult` of a window is
persisted only after the *entire window* settles — the trace is sorted
by phase, so every settlement of window `k` precedes every persistence
event of window `k` (all its items settle, by the last conjunct), and
those in turn precede window `k+1`'s launches.  The rest of the claim
stands: a persistence event occurs only for an item with a successful
result, its outcome is exactly what the guarded persistence call
returned, and a persistence failure changes neither that item's
successful result nor any other result (the result list is independent
of persistence outcomes). -/
theorem claim_c6_amended {F : Type} (maxConcurrent : Nat) (behavior : String → ItemOutcome F)
    (persistOk : String → Bool) (now : Nat) (urls : List String) (urlExists : String → Bool) :
    List.Pairwise (fun a b => phase a ≤ phase b)
      (scrapeUrls maxConcurrent behavior persistOk now urls urlExists).trace ∧
    (∀ p2 : String → Bool,
      (scrapeUrls maxConcurrent behavior p2 now urls urlExists).results =
        (scrapeUrls maxConcurrent behavior persistOk now urls urlExists).results) ∧
    (∀ (k : Nat) (u : String) (ok : Bool),
      Event.persistEvt k u ok ∈
          (scrapeUrls maxConcurrent behavior persistOk now urls urlExists).trace →
      ok = persistOk u ∧
        ∃ r ∈ (scrapeUrls maxConcurrent behavior persistOk now urls urlExists).results,
          r.url = u ∧ r.success = true) ∧
    (∀ (k : Nat) (w : List String) (v : String),
      (chunksOf maxConcurrent (urls.filter fun u => !(urlExists u))).get? k = some w →
      v ∈ w →
      Event.settle k v (processUrl behavior now v) ∈
        (scrapeUrls maxConcurrent behavior persistOk now urls urlExists).trace) := by
  refine ⟨?_, ?_, ?_, ?_⟩
  · simp only [scrapeUrls]
    by_cases hemp : (urls.filter fun u => !(urlExists u)).isEmpty
    · rw [if_pos hemp]
      exact List.Pairwise.nil
    · rw [if_neg hemp]
      exact trace_pairwise behavior persistOk now _ 0
  · intro p2
    simp only [scrapeUrls]
    by_cases hemp : (urls.filter fun u => !(urlExists u)).isEmpty
    · rw [if_pos hemp, if_pos hemp]
    · rw [if_neg hemp, if_neg hemp]
      exact runBatches_results_indep behavior p2 persistOk now _ 0
  · intro k u ok h
    simp only [scrapeUrls] at h ⊢
    by_cases hemp : (urls.filter fun u => !(urlExists u)).isEmpty
    · rw [if_pos hemp] at h
      simp at h
    · rw [if_neg hemp] at h
      rw [if_neg hemp]
      exact persist_mem_trace behavior persistOk now _ 0 k u ok h
  · intro k w v hw hv
    simp only [scrapeUrls]
    by_cases hemp : (urls.filter fun u => !(urlExists u)).isEmpty
    · rw [List.isEmpty_iff.mp hemp, chunksOf_nil] at hw
      simp at hw
    · rw [if_neg hemp]
      have hs := settle_mem_trace behavior persistOk now
        (chunksOf maxConcurrent (urls.filter fun u => !(urlExists u))) 0 k w v hw hv
      simpa using hs

/-- Witness for C6 (corrected) on the two-item window: the trace is
phase-sorted and the persisted item has a successful result. -/
theorem claim_c6_amended_witness :
    List.Pairwise (fun a b => phase a ≤ phase b)
      (scrapeUrls 3 (fun _ => (ItemOutcome.features (some true) : ItemOutcome Bool))
        (fun _ => true) 0 ["u1", "u2"] (fun _ => false)).trace ∧
    ∃ r ∈ (scrapeUrls 3 (fun _ => (ItemOutcome.features (some true) : ItemOutcome Bool))
        (fun _ => true) 0 ["u1", "u2"] (fun _ => false)).results,
      r.url = "u1" ∧ r.success = true := by
  have h := claim_c6_amended 3
    (fun _ => (ItemOutcome.features (some true) : ItemOutcome Bool))
    (fun _ => true) 0 ["u1", "u2"] (fun _ => false)
  exact ⟨h.1, (h.2.2.1 0 "u1" true (by decide)).2⟩

end AbleAway
